import Mathlib

/-!
Shallow embedding of the WebRTC peer-connection manager of this repository
(src/lib/webrtc.ts, class WebRTCManager) and of the second, basic manager
variant (src/unnamed/part_002). The JS Map objects become association
lists with get/set/delete mirroring Map semantics; RTCPeerConnection
transports become records in an allocation store keyed by a numeric id so
that closing and replacing transports is observable; signaling emissions
become a trace of messages. SDP blobs and ICE candidates are opaque
numbers. Asynchronous handlers are modelled as atomic state transformers:
in the source every handler runs its guard-and-mutate section
synchronously before its first await on the single-threaded event loop,
which is the granularity the claims speak about.
-/

namespace WebRTC

/-! ## Association-map operations mirroring JS Map get / set / delete -/

/-- Map lookup: first entry with the given key (JS Map keys are unique). -/
def mget {K α : Type} [DecidableEq K] : List (K × α) → K → Option α
  | [], _ => none
  | (k', v) :: rest, k => if k = k' then some v else mget rest k

/-- Map update: replace the entry for the key, or append a new entry. -/
def mset {K α : Type} [DecidableEq K] : List (K × α) → K → α → List (K × α)
  | [], k, v => [(k, v)]
  | (k', v') :: rest, k, v =>
      if k = k' then (k, v) :: rest else (k', v') :: mset rest k v

/-- Map deletion: remove the entry for the key. -/
def mdel {K α : Type} [DecidableEq K] : List (K × α) → K → List (K × α)
  | [], _ => []
  | (k', v') :: rest, k =>
      if k = k' then mdel rest k else (k', v') :: mdel rest k

/-! ## Data model (src/lib/webrtc.ts lines 3-35) -/

/-- Per-peer retry bookkeeping, interface ConnectionState (lines 18-22). -/
structure ConnectionState where
  retryCount : Nat
  lastRetryTime : Nat
  isRetrying : Bool
deriving DecidableEq

/-- The observable surface of one RTCPeerConnection transport: which
descriptions have been applied, the remote candidates added (in call
order), how many createOffer / createAnswer calls were made on it, the
track senders attached, and whether close() ran. -/
structure PC where
  localDesc : Option Nat
  remoteDesc : Option Nat
  applied : List Nat
  offersCreated : Nat
  answersCreated : Nat
  senders : List Nat
  closed : Bool
deriving DecidableEq

/-- userType of the config: broadcaster or viewer. -/
inductive Role
  | broadcaster
  | viewer
deriving DecidableEq

/-- Outbound signaling emissions, by kind and addressee. -/
inductive Msg
  | joinRoom
  | leaveRoom
  | offerMsg (target : String)
  | answerMsg (target : String)
  | iceCandidateMsg (target : String)
  | peerStateMsg (target : String)
deriving DecidableEq

/-- One local media track; stop() marks it stopped. -/
structure Track where
  stopped : Bool
deriving DecidableEq

/-- ICE connection states the oniceconnectionstatechange handler inspects;
`other` covers the states it ignores (new, checking, closed). -/
inductive IceConnState
  | connected
  | completed
  | failed
  | disconnected
  | other
deriving DecidableEq

/-- Connection states the onconnectionstatechange handler inspects;
`other` covers the states it ignores. -/
inductive ConnState
  | connected
  | failed
  | disconnected
  | other
deriving DecidableEq

/-- The WebRTCManager instance state (fields, lines 25-35): socket handle
(modelled as present / absent), local stream (list of track ids), a track
store, the three per-peer maps, a transport store with an allocation
counter, the configured role, and the trace of emitted messages. -/
structure MState where
  socket : Bool
  localStream : Option (List Nat)
  tracks : List (Nat × Track)
  peerConnections : List (String × Nat)
  pcs : List (Nat × PC)
  nextPcId : Nat
  iceCandidateQueues : List (String × List Nat)
  connectionStates : List (String × ConnectionState)
  userType : Role
  emitted : List Msg
deriving DecidableEq

/-- MAX_RETRY_ATTEMPTS (line 34). -/
def MAX_RETRY_ATTEMPTS : Nat := 5

/-- A fresh manager, as constructed (lines 24-39). -/
def initState (r : Role) : MState :=
  { socket := false, localStream := none, tracks := [],
    peerConnections := [], pcs := [], nextPcId := 0,
    iceCandidateQueues := [], connectionStates := [],
    userType := r, emitted := [] }

/-- Update the transport with the given id in the store, if present. -/
def pcModify (s : MState) (pcid : Nat) (f : PC → PC) : MState :=
  match mget s.pcs pcid with
  | none => s
  | some pc => { s with pcs := mset s.pcs pcid (f pc) }

/-! ## Manager operations (src/lib/webrtc.ts) -/

/-- initialize (lines 86-108): connects a fresh socket (unconditionally
replacing any previous one, without disconnecting it), registers listeners
and emits join-room. The source has no failure path: io() returns a socket
immediately and connects asynchronously, and nothing checks whether the
manager already joined. Named initManager because the source name,
initialize, is reserved in Lean. -/
def initManager (s : MState) : MState :=
  { s with socket := true, emitted := s.emitted ++ [Msg.joinRoom] }

/-- createPeerConnection (lines 215-376): allocates a fresh transport,
resets the connection state for the peer to zero retries, resets the ICE
candidate queue for the peer to the empty list, attaches the current local
stream tracks, and stores the transport in the peerConnections map. -/
def createPeerConnection (u : String) (s : MState) : MState :=
  let pc : PC :=
    { localDesc := none, remoteDesc := none, applied := [],
      offersCreated := 0, answersCreated := 0,
      senders := s.localStream.getD [], closed := false }
  { s with
    connectionStates :=
      mset s.connectionStates u ⟨0, 0, false⟩,
    iceCandidateQueues := mset s.iceCandidateQueues u [],
    pcs := mset s.pcs s.nextPcId pc,
    peerConnections := mset s.peerConnections u s.nextPcId,
    nextPcId := s.nextPcId + 1 }

/-- flushIceCandidateQueue (lines 471-491): if the peer has a transport
and a non-empty queue and the remote description is set, add every queued
candidate to the transport in queue order and clear the queue. -/
def flushIceCandidateQueue (u : String) (s : MState) : MState :=
  match mget s.peerConnections u, mget s.iceCandidateQueues u with
  | some pcid, some q =>
    if q.isEmpty then s
    else
      match mget s.pcs pcid with
      | none => s
      | some pc =>
        if pc.remoteDesc.isSome then
          { s with
            pcs := mset s.pcs pcid { pc with applied := pc.applied ++ q },
            iceCandidateQueues := mset s.iceCandidateQueues u [] }
        else s
  | _, _ => s

/-- handleIceCandidate (lines 565-597): no transport yet, or remote
description not yet applied, appends the candidate to the peer queue;
otherwise adds it to the transport at once. -/
def handleIceCandidate (c : Nat) (u : String) (s : MState) : MState :=
  let enqueued := mset s.iceCandidateQueues u ((mget s.iceCandidateQueues u).getD [] ++ [c])
  match mget s.peerConnections u with
  | none => { s with iceCandidateQueues := enqueued }
  | some pcid =>
    match mget s.pcs pcid with
    | none => s
    | some pc =>
      if pc.remoteDesc.isNone then
        { s with iceCandidateQueues := enqueued }
      else
        { s with pcs := mset s.pcs pcid { pc with applied := pc.applied ++ [c] } }

/-- createOffer (lines 493-514): always creates a fresh transport for the
peer, produces and applies a local offer, and emits it when a socket is
connected. -/
def createOffer (u : String) (s : MState) : MState :=
  let pcid := s.nextPcId
  let s1 := createPeerConnection u s
  let s2 := pcModify s1 pcid
    (fun pc => { pc with offersCreated := pc.offersCreated + 1, localDesc := some 1 })
  if s2.socket then { s2 with emitted := s2.emitted ++ [Msg.offerMsg u] } else s2

/-- The body of handleOffer once the transport for the sender is fixed:
apply the offer as remote description, flush the queue, produce and apply
a local answer, emit it when a socket is connected. -/
def handleOfferOn (sdp : Nat) (u : String) (pcid : Nat) (s : MState) : MState :=
  match mget s.pcs pcid with
  | none => s
  | some pc =>
    let s2 := { s with pcs := mset s.pcs pcid { pc with remoteDesc := some sdp } }
    let s3 := flushIceCandidateQueue u s2
    let s4 := pcModify s3 pcid
      (fun q => { q with answersCreated := q.answersCreated + 1, localDesc := some sdp })
    if s4.socket then { s4 with emitted := s4.emitted ++ [Msg.answerMsg u] } else s4

/-- handleOffer (lines 516-544): reuse an existing transport for the
sender when present (the renegotiation / ICE-restart path), otherwise
create one. -/
def handleOffer (sdp : Nat) (u : String) (s : MState) : MState :=
  match mget s.peerConnections u with
  | some pcid => handleOfferOn sdp u pcid s
  | none => handleOfferOn sdp u s.nextPcId (createPeerConnection u s)

/-- handleAnswer (lines 546-563): no transport for the sender means the
answer is stale and the call returns having changed nothing; otherwise
apply the answer as remote description and flush the queue. -/
def handleAnswer (sdp : Nat) (u : String) (s : MState) : MState :=
  match mget s.peerConnections u with
  | none => s
  | some pcid =>
    match mget s.pcs pcid with
    | none => s
    | some pc =>
      flushIceCandidateQueue u
        { s with pcs := mset s.pcs pcid { pc with remoteDesc := some sdp } }

/-- restartIce (lines 418-444): on a broadcaster, create and apply an
ICE-restart offer on the existing transport and emit it; a viewer waits
passively. The err flag models the transport createOffer call throwing,
in which case the catch block rethrows after logging and no state
changes. -/
def restartIce (u : String) (err : Bool) (s : MState) : MState :=
  match mget s.peerConnections u with
  | none => s
  | some pcid =>
    match s.userType with
    | Role.viewer => s
    | Role.broadcaster =>
      if err then s
      else
        let s1 := pcModify s pcid
          (fun pc => { pc with offersCreated := pc.offersCreated + 1, localDesc := some 1 })
        if s1.socket then { s1 with emitted := s1.emitted ++ [Msg.offerMsg u] } else s1

/-- handleConnectionFailure (lines 378-416): bail out when the peer has no
connection state, when a retry is already in progress, or when the retry
budget is exhausted; otherwise mark retrying, increment the retry count,
record the retry time (after the backoff sleep), run restartIce with
errors swallowed, and clear isRetrying in the finally block. -/
def handleConnectionFailure (u : String) (now : Nat) (err : Bool) (s : MState) : MState :=
  match mget s.connectionStates u with
  | none => s
  | some st =>
    if st.isRetrying then s
    else if MAX_RETRY_ATTEMPTS ≤ st.retryCount then s
    else
      let cs1 := mset s.connectionStates u ⟨st.retryCount + 1, now, true⟩
      let s1 := { s with connectionStates := cs1 }
      let s2 := restartIce u err s1
      match mget s2.connectionStates u with
      | none => s2
      | some st2 =>
        let cs2 := mset s2.connectionStates u { st2 with isRetrying := false }
        { s2 with connectionStates := cs2 }

/-- restartIceForPeer (lines 172-213), the relay-reported path: with no
transport for the peer it falls back to createOffer; otherwise it skips
only when the retry budget is exhausted, increments the retry count when a
connection state exists (without touching isRetrying), and performs an
ICE-restart offer on the transport, emitting it when a socket is
connected. The err flag models the transport createOffer call throwing,
caught and logged. -/
def restartIceForPeer (u : String) (now : Nat) (err : Bool) (s : MState) : MState :=
  match mget s.peerConnections u with
  | none => createOffer u s
  | some pcid =>
    let atCap : Bool := match mget s.connectionStates u with
      | some st => MAX_RETRY_ATTEMPTS ≤ st.retryCount
      | none => false
    if atCap then s
    else
      let s1 := match mget s.connectionStates u with
        | some st =>
          let cs := mset s.connectionStates u ⟨st.retryCount + 1, now, st.isRetrying⟩
          { s with connectionStates := cs }
        | none => s
      if err then s1
      else
        let s2 := pcModify s1 pcid
          (fun pc => { pc with offersCreated := pc.offersCreated + 1, localDesc := some 1 })
        if s2.socket then { s2 with emitted := s2.emitted ++ [Msg.offerMsg u] } else s2

/-- The retry-count / isRetrying reset performed by both state-change
handlers on a fully established connection (lines 330-334 and 366-370). -/
def resetConnState (u : String) (s : MState) : MState :=
  match mget s.connectionStates u with
  | none => s
  | some st =>
    let cs := mset s.connectionStates u { st with retryCount := 0, isRetrying := false }
    { s with connectionStates := cs }

/-- oniceconnectionstatechange (lines 309-336): announce the state on the
relay for the four states it reports, recover on failed / disconnected,
reset the retry bookkeeping on connected / completed. -/
def onIceConnectionStateChange (u : String) (ist : IceConnState) (now : Nat)
    (err : Bool) (s : MState) : MState :=
  let s1 := if s.socket ∧ ist ≠ IceConnState.other then
      { s with emitted := s.emitted ++ [Msg.peerStateMsg u] }
    else s
  match ist with
  | IceConnState.failed => handleConnectionFailure u now err s1
  | IceConnState.disconnected => handleConnectionFailure u now err s1
  | IceConnState.connected => resetConnState u s1
  | IceConnState.completed => resetConnState u s1
  | IceConnState.other => s1

/-- onconnectionstatechange (lines 339-372): announce the state on the
relay whenever a socket is connected, recover on failed (and on
disconnected when the local role is broadcaster), reset the retry
bookkeeping on connected. -/
def onConnectionStateChange (u : String) (cst : ConnState) (now : Nat)
    (err : Bool) (s : MState) : MState :=
  let s1 := if s.socket then
      { s with emitted := s.emitted ++ [Msg.peerStateMsg u] }
    else s
  match cst with
  | ConnState.failed => handleConnectionFailure u now err s1
  | ConnState.disconnected =>
      if s1.userType = Role.broadcaster then handleConnectionFailure u now err s1 else s1
  | ConnState.connected => resetConnState u s1
  | ConnState.other => s1

/-- track.stop() on the track with the given id. -/
def stopTrackIn (tracks : List (Nat × Track)) (tid : Nat) : List (Nat × Track) :=
  match mget tracks tid with
  | none => tracks
  | some t => mset tracks tid { t with stopped := true }

/-- stopStream (lines 639-644): stop every track of the local stream and
clear the local stream reference; nothing else is touched. -/
def stopStream (s : MState) : MState :=
  match s.localStream with
  | none => s
  | some ts =>
    { s with tracks := ts.foldl stopTrackIn s.tracks, localStream := none }

/-- closePeerConnection (lines 651-660): close and drop the transport of
the one peer, then drop its candidate queue and connection state. -/
def closePeerConnection (u : String) (s : MState) : MState :=
  let s1 := match mget s.peerConnections u with
    | none => s
    | some pcid =>
      let s' := pcModify s pcid (fun pc => { pc with closed := true })
      { s' with peerConnections := mdel s'.peerConnections u }
  { s1 with
    iceCandidateQueues := mdel s1.iceCandidateQueues u,
    connectionStates := mdel s1.connectionStates u }

/-- Close every transport held in the peerConnections map. -/
def closeAll (pcs : List (Nat × PC)) (ids : List Nat) : List (Nat × PC) :=
  pcs.map (fun p => if p.1 ∈ ids then (p.1, { p.2 with closed := true }) else p)

/-- disconnect (lines 662-676): stop the local stream, close every
transport in the map and clear the map, then emit leave-room and drop the
socket when one is connected. -/
def disconnect (s : MState) : MState :=
  let s1 := stopStream s
  let s2 := { s1 with
    pcs := closeAll s1.pcs (s1.peerConnections.map Prod.snd),
    peerConnections := [] }
  if s2.socket then
    { s2 with emitted := s2.emitted ++ [Msg.leaveRoom], socket := false }
  else s2

/-- getLocalStream (lines 678-680). -/
def getLocalStream (s : MState) : Option (List Nat) :=
  s.localStream

/-! ## Failure-notification sequences, for the retry-cap invariant -/

/-- One connection-failure notification: the local transport-state path
(handleConnectionFailure) or the relay-reported path (restartIceForPeer). -/
inductive FailNotice
  | localFail (u : String) (now : Nat) (err : Bool)
  | relayFail (u : String) (now : Nat) (err : Bool)

/-- Deliver one failure notification. -/
def applyFail (s : MState) : FailNotice → MState
  | FailNotice.localFail u now err => handleConnectionFailure u now err s
  | FailNotice.relayFail u now err => restartIceForPeer u now err s

/-- Deliver a sequence of failure notifications, in order. -/
def runFails (s : MState) : List FailNotice → MState
  | [] => s
  | e :: rest => runFails (applyFail s e) rest

/-- Every recorded retry count is within the retry budget. -/
def RetryCap (s : MState) : Prop :=
  ∀ p ∈ s.connectionStates, p.2.retryCount ≤ MAX_RETRY_ATTEMPTS

instance (s : MState) : Decidable (RetryCap s) := by
  unfold RetryCap; infer_instance

end WebRTC

namespace WebRTCBasic

open WebRTC (mget mset mdel PC Msg)

/-- Manager state of the basic variant (src/unnamed/part_002): no retry
bookkeeping and no candidate queues. -/
structure BState where
  socket : Bool
  localStream : Option (List Nat)
  peerConnections : List (String × Nat)
  pcs : List (Nat × PC)
  nextPcId : Nat
  emitted : List Msg
deriving DecidableEq

/-- A fresh basic manager. -/
def initBState : BState :=
  { socket := false, localStream := none, peerConnections := [],
    pcs := [], nextPcId := 0, emitted := [] }

/-- createPeerConnection of the basic variant (part_002 lines 94-140):
allocates a fresh transport and stores it in the map, replacing any
existing entry for the peer without closing it. -/
def createPeerConnection (u : String) (s : BState) : BState :=
  let pc : PC :=
    { localDesc := none, remoteDesc := none, applied := [],
      offersCreated := 0, answersCreated := 0,
      senders := s.localStream.getD [], closed := false }
  { s with
    pcs := mset s.pcs s.nextPcId pc,
    peerConnections := mset s.peerConnections u s.nextPcId,
    nextPcId := s.nextPcId + 1 }

/-- handleOffer of the basic variant (part_002 lines 161-179): always
calls createPeerConnection for the sender, then applies the offer,
produces and applies an answer, and emits it. -/
def handleOffer (sdp : Nat) (u : String) (s : BState) : BState :=
  let pcid := s.nextPcId
  let s1 := createPeerConnection u s
  match mget s1.pcs pcid with
  | none => s1
  | some pc =>
    let pc2 : PC := { pc with remoteDesc := some sdp, localDesc := some sdp,
                              answersCreated := pc.answersCreated + 1 }
    let s2 := { s1 with pcs := mset s1.pcs pcid pc2 }
    if s2.socket then { s2 with emitted := s2.emitted ++ [Msg.answerMsg u] } else s2

/-- handleAnswer of the basic variant (part_002 lines 181-190): no
transport for the sender means the call returns having changed nothing;
otherwise apply the answer as remote description. -/
def handleAnswer (sdp : Nat) (u : String) (s : BState) : BState :=
  match mget s.peerConnections u with
  | none => s
  | some pcid =>
    match mget s.pcs pcid with
    | none => s
    | some pc =>
      { s with pcs := mset s.pcs pcid { pc with remoteDesc := some sdp } }

end WebRTCBasic

namespace WebRTC

/-! ## Concrete states used by the closed theorems and witnesses -/

/-- A live transport after one completed handshake. -/
def pcLive : PC :=
  { localDesc := some 1, remoteDesc := some 1, applied := [],
    offersCreated := 1, answersCreated := 0, senders := [], closed := false }

/-- A broadcaster mid-recovery toward viewer v: the synchronous prefix of
handleConnectionFailure has run (isRetrying set, one retry counted) and
the restart offer is still awaited. -/
def midRecoveryState : MState :=
  { socket := true, localStream := none, tracks := [],
    peerConnections := [("v", 0)], pcs := [(0, pcLive)], nextPcId := 1,
    iceCandidateQueues := [("v", [])],
    connectionStates := [("v", ⟨1, 0, true⟩)],
    userType := Role.broadcaster, emitted := [] }

/-- A broadcaster whose retry budget toward viewer v is exhausted. -/
def cappedState : MState :=
  { socket := true, localStream := none, tracks := [],
    peerConnections := [("v", 0)], pcs := [(0, pcLive)], nextPcId := 1,
    iceCandidateQueues := [("v", [])],
    connectionStates := [("v", ⟨5, 0, false⟩)],
    userType := Role.broadcaster, emitted := [] }

/-- A broadcaster with a healthy record toward viewer v. -/
def healthyState : MState :=
  { socket := true, localStream := some [0], tracks := [(0, ⟨false⟩)],
    peerConnections := [("v", 0)], pcs := [(0, pcLive)], nextPcId := 1,
    iceCandidateQueues := [("v", [])],
    connectionStates := [("v", ⟨2, 0, false⟩)],
    userType := Role.broadcaster, emitted := [] }

/-- A broadcaster with records toward two viewers v and w. -/
def twoPeerState : MState :=
  { socket := true, localStream := some [0], tracks := [(0, ⟨false⟩)],
    peerConnections := [("v", 0), ("w", 1)],
    pcs := [(0, pcLive), (1, pcLive)], nextPcId := 2,
    iceCandidateQueues := [("v", [3]), ("w", [4])],
    connectionStates := [("v", ⟨0, 0, false⟩), ("w", ⟨1, 0, false⟩)],
    userType := Role.broadcaster, emitted := [] }

/-- The C1 run, step 0: a fresh viewer with a connected socket. -/
def c1s0 : MState := { initState Role.viewer with socket := true }

/-- The C1 run, step 1: ICE candidate 7 from b1 arrives before any record
for b1 exists, so it is queued. -/
def c1s1 : MState := handleIceCandidate 7 "b1" c1s0

/-- The C1 run, step 2: the offer from b1 arrives and is handled. -/
def c1s2 : MState := handleOffer 1 "b1" c1s1

/-- The C6 run: a viewer handles the offer from broadcaster b, then sees
connection states connected, failed (one recovery attempt), connected. -/
def c6s0 : MState := handleOffer 1 "b" { initState Role.viewer with socket := true }

/-- The C6 run after the first Connected. -/
def c6s1 : MState := onConnectionStateChange "b" ConnState.connected 0 false c6s0

/-- The C6 run after Failed and the recovery attempt it triggers. -/
def c6s2 : MState := onConnectionStateChange "b" ConnState.failed 1 false c6s1

/-- The C6 run after the second Connected. -/
def c6s3 : MState := onConnectionStateChange "b" ConnState.connected 2 false c6s2

end WebRTC

namespace WebRTCBasic

/-- A basic-variant manager with a connected socket. -/
def b0 : BState := { initBState with socket := true }

/-- The basic variant after handling a first offer from peer p. -/
def b1 : BState := handleOffer 1 "p" b0

/-- The basic variant after handling a second offer from the same peer. -/
def b2 : BState := handleOffer 2 "p" b1

end WebRTCBasic

namespace WebRTC

/-! ## Map lemmas -/

theorem mget_mset_self {K α : Type} [DecidableEq K] (m : List (K × α)) (k : K) (v : α) :
    mget (mset m k v) k = some v := by
  induction m with
  | nil => simp [mset, mget]
  | cons p rest ih =>
    by_cases h : k = p.1
    · simp [mset, h, mget]
    · simp [mset, h, mget, ih]

theorem mget_mset_ne {K α : Type} [DecidableEq K] (m : List (K × α)) (k k' : K) (v : α)
    (h : k' ≠ k) : mget (mset m k v) k' = mget m k' := by
  induction m with
  | nil => simp [mset, mget, h]
  | cons p rest ih =>
    by_cases hk : k = p.1
    · subst hk; simp [mset, mget, h, ih]
    · by_cases hk' : k' = p.1
      · simp [mset, mget, hk, hk']
      · simp [mset, mget, hk, hk', ih]

theorem mget_mdel_self {K α : Type} [DecidableEq K] (m : List (K × α)) (k : K) :
    mget (mdel m k) k = none := by
  induction m with
  | nil => simp [mdel, mget]
  | cons p rest ih =>
    by_cases h : k = p.1
    · simpa [mdel, h] using ih
    · simp [mdel, mget, h, ih]

theorem mget_mdel_ne {K α : Type} [DecidableEq K] (m : List (K × α)) (k k' : K)
    (h : k' ≠ k) : mget (mdel m k) k' = mget m k' := by
  induction m with
  | nil => simp [mdel, mget]
  | cons p rest ih =>
    by_cases hk : k = p.1
    · have hk2 : k' ≠ p.1 := fun hc => h (hc.trans hk.symm)
      rw [show mdel (p :: rest) k = mdel rest k from by simp [mdel, hk]]
      rw [ih]
      simp [mget, hk2]
    · by_cases hk' : k' = p.1
      · simp [mdel, mget, hk, hk']
      · simp [mdel, mget, hk, hk', ih]

theorem mem_of_mget {K α : Type} [DecidableEq K] (m : List (K × α)) (k : K) (v : α)
    (h : mget m k = some v) : (k, v) ∈ m := by
  induction m with
  | nil => simp [mget] at h
  | cons p rest ih =>
    by_cases hk : k = p.1
    · subst hk
      simp [mget] at h
      subst h
      exact List.mem_cons_self _ _
    · simp [mget, hk] at h
      exact List.mem_cons_of_mem _ (ih h)

theorem mem_mset {K α : Type} [DecidableEq K] (m : List (K × α)) (k : K) (v : α)
    (p : K × α) (h : p ∈ mset m k v) : p = (k, v) ∨ p ∈ m := by
  induction m with
  | nil => simp [mset] at h; simp [h]
  | cons q rest ih =>
    by_cases hk : k = q.1
    · simp [mset, hk] at h
      rcases h with h | h
      · exact Or.inl (by rw [hk]; exact h)
      · exact Or.inr (List.mem_cons_of_mem _ h)
    · simp [mset, hk] at h
      rcases h with h | h
      · right; rw [h]; exact List.mem_cons_self _ _
      · rcases ih h with h' | h'
        · exact Or.inl h'
        · exact Or.inr (List.mem_cons_of_mem _ h')

end WebRTC

namespace WebRTC

/-! ## Frame lemmas for the elementary operations -/

theorem pcModify_connStates (s : MState) (i : Nat) (f : PC → PC) :
    (pcModify s i f).connectionStates = s.connectionStates := by
  unfold pcModify; split <;> rfl

theorem pcModify_peerConnections (s : MState) (i : Nat) (f : PC → PC) :
    (pcModify s i f).peerConnections = s.peerConnections := by
  unfold pcModify; split <;> rfl

theorem pcModify_queues (s : MState) (i : Nat) (f : PC → PC) :
    (pcModify s i f).iceCandidateQueues = s.iceCandidateQueues := by
  unfold pcModify; split <;> rfl

theorem pcModify_nextPcId (s : MState) (i : Nat) (f : PC → PC) :
    (pcModify s i f).nextPcId = s.nextPcId := by
  unfold pcModify; split <;> rfl

theorem pcModify_socket (s : MState) (i : Nat) (f : PC → PC) :
    (pcModify s i f).socket = s.socket := by
  unfold pcModify; split <;> rfl

theorem pcModify_localStream (s : MState) (i : Nat) (f : PC → PC) :
    (pcModify s i f).localStream = s.localStream := by
  unfold pcModify; split <;> rfl

theorem pcModify_of_none (s : MState) (i : Nat) (f : PC → PC)
    (h : mget s.pcs i = none) : pcModify s i f = s := by
  unfold pcModify; rw [h]

theorem pcModify_pcs_of_some (s : MState) (i : Nat) (f : PC → PC) (pc : PC)
    (h : mget s.pcs i = some pc) : (pcModify s i f).pcs = mset s.pcs i (f pc) := by
  unfold pcModify; rw [h]

theorem flush_peerConnections (u : String) (s : MState) :
    (flushIceCandidateQueue u s).peerConnections = s.peerConnections := by
  unfold flushIceCandidateQueue; repeat' split
  all_goals rfl

theorem flush_connStates (u : String) (s : MState) :
    (flushIceCandidateQueue u s).connectionStates = s.connectionStates := by
  unfold flushIceCandidateQueue; repeat' split
  all_goals rfl

theorem flush_nextPcId (u : String) (s : MState) :
    (flushIceCandidateQueue u s).nextPcId = s.nextPcId := by
  unfold flushIceCandidateQueue; repeat' split
  all_goals rfl

theorem flush_socket (u : String) (s : MState) :
    (flushIceCandidateQueue u s).socket = s.socket := by
  unfold flushIceCandidateQueue; repeat' split
  all_goals rfl

theorem flush_emitted (u : String) (s : MState) :
    (flushIceCandidateQueue u s).emitted = s.emitted := by
  unfold flushIceCandidateQueue; repeat' split
  all_goals rfl

theorem flush_localStream (u : String) (s : MState) :
    (flushIceCandidateQueue u s).localStream = s.localStream := by
  unfold flushIceCandidateQueue; repeat' split
  all_goals rfl

theorem createOffer_connStates (u : String) (s : MState) :
    (createOffer u s).connectionStates = mset s.connectionStates u ⟨0, 0, false⟩ := by
  unfold createOffer
  simp [apply_ite MState.connectionStates, pcModify_connStates, createPeerConnection]

theorem createOffer_peerConnections (u : String) (s : MState) :
    (createOffer u s).peerConnections = mset s.peerConnections u s.nextPcId := by
  unfold createOffer
  simp [apply_ite MState.peerConnections, pcModify_peerConnections, createPeerConnection]

theorem restartIce_connStates (u : String) (err : Bool) (s : MState) :
    (restartIce u err s).connectionStates = s.connectionStates := by
  unfold restartIce
  repeat' split
  all_goals simp [apply_ite MState.connectionStates, pcModify_connStates]

theorem restartIce_peerConnections (u : String) (err : Bool) (s : MState) :
    (restartIce u err s).peerConnections = s.peerConnections := by
  unfold restartIce
  repeat' split
  all_goals simp [apply_ite MState.peerConnections, pcModify_peerConnections]

theorem hCF_peerConnections (u : String) (now : Nat) (err : Bool) (s : MState) :
    (handleConnectionFailure u now err s).peerConnections = s.peerConnections := by
  unfold handleConnectionFailure
  repeat' split
  all_goals simp [apply_ite MState.peerConnections, restartIce_peerConnections,
    restartIce_connStates, mget_mset_self]

end WebRTC

namespace WebRTC

/-! ## Claim theorems -/

/-- C1: every remote ICE candidate delivered before the remote
description is queued and the flush after applying the remote description
applies every queued candidate in arrival order, including candidates
that arrived before the connection record was created. The concrete run
below shows the code violating the pre-record part: candidate 7 from b1
is queued while no record exists, the subsequent offer from b1 creates
the record — createPeerConnection resets the queue to the empty list —
and after the remote description is applied and the queue flushed, the
transport has received no candidate at all. -/
theorem preRecord_candidate_discarded :
    mget c1s1.iceCandidateQueues "b1" = some [7] ∧
    mget c1s2.peerConnections "b1" = some 0 ∧
    (mget c1s2.pcs 0).map PC.remoteDesc = some (some 1) ∧
    mget c1s2.iceCandidateQueues "b1" = some [] ∧
    (mget c1s2.pcs 0).map PC.applied = some [] := by
  decide

/-- C3 counterexample: a recovery is in progress for viewer v
(isRetrying is set), yet the relay-reported path restartIceForPeer
starts a second recovery anyway — it increments the retry count, creates
a second ICE-restart offer on the transport, and emits it — so the
isRetrying guard does not apply to every recovery trigger. -/
theorem relay_restart_bypasses_isRetrying_guard :
    (mget midRecoveryState.connectionStates "v").map ConnectionState.isRetrying = some true ∧
    (restartIceForPeer "v" 9 false midRecoveryState).emitted = [Msg.offerMsg "v"] ∧
    (mget (restartIceForPeer "v" 9 false midRecoveryState).pcs 0).map PC.offersCreated = some 2 ∧
    mget (restartIceForPeer "v" 9 false midRecoveryState).connectionStates "v" = some ⟨2, 9, true⟩ := by
  decide

/-- C3 amended: the isRetrying guard holds on the local transport-state
path only — handleConnectionFailure is a no-op while isRetrying is set,
and when it does run (isRetrying clear on entry) it leaves isRetrying
clear in every outcome, including a transport error during the restart;
the relay-reported path restartIceForPeer neither checks nor sets
isRetrying. -/
theorem isRetrying_guard_local_path_only :
    (∀ (s : MState) (u : String) (now : Nat) (err : Bool) (st : ConnectionState),
      mget s.connectionStates u = some st → st.isRetrying = true →
      handleConnectionFailure u now err s = s) ∧
    (∀ (s : MState) (u : String) (now : Nat) (err : Bool) (st : ConnectionState),
      mget s.connectionStates u = some st → st.isRetrying = false →
      (mget (handleConnectionFailure u now err s).connectionStates u).map
        ConnectionState.isRetrying = some false) := by
  constructor
  · intro s u now err st h hr
    unfold handleConnectionFailure
    rw [h]
    simp [hr]
  · intro s u now err st h hr
    unfold handleConnectionFailure
    rw [h]
    by_cases hcap : MAX_RETRY_ATTEMPTS ≤ st.retryCount
    · simp [hr, hcap, h]
    · simp [hr, hcap, restartIce_connStates, mget_mset_self]

/-- Witness for the C3 amended theorem at concrete states. -/
theorem isRetrying_guard_local_path_only_witness :
    handleConnectionFailure "v" 0 false midRecoveryState = midRecoveryState ∧
    (mget (handleConnectionFailure "v" 4 false healthyState).connectionStates "v").map
      ConnectionState.isRetrying = some false :=
  ⟨isRetrying_guard_local_path_only.1 midRecoveryState "v" 0 false ⟨1, 0, true⟩
      (by decide) (by decide),
   isRetrying_guard_local_path_only.2 healthyState "v" 4 false ⟨2, 0, false⟩
      (by decide) (by decide)⟩

/-- C4 counterexample: in the basic manager variant, a second offer from
a peer that already has a connection record creates a second transport
(allocation count rises to 2) and replaces the map entry with it, without
closing the first transport. -/
theorem basic_handleOffer_replaces_existing_record :
    mget WebRTCBasic.b1.peerConnections "p" = some 0 ∧
    mget WebRTCBasic.b2.peerConnections "p" = some 1 ∧
    WebRTCBasic.b2.nextPcId = 2 ∧
    (mget WebRTCBasic.b2.pcs 0).map PC.closed = some false := by
  decide

/-- C4 amended: in the resilient manager (src/lib/webrtc.ts), receiving
an offer from a peer with an existing connection record reuses that
record: handleOffer allocates no new transport, leaves the
peerConnections map entirely unchanged, and leaves the retry bookkeeping
untouched. -/
theorem handleOffer_reuses_existing_record (s : MState) (sdp : Nat) (u : String) (pcid : Nat)
    (h : mget s.peerConnections u = some pcid) :
    (handleOffer sdp u s).peerConnections = s.peerConnections ∧
    (handleOffer sdp u s).nextPcId = s.nextPcId ∧
    (handleOffer sdp u s).connectionStates = s.connectionStates := by
  have hof : handleOffer sdp u s = handleOfferOn sdp u pcid s := by
    unfold handleOffer; rw [h]
  rw [hof]
  refine ⟨?_, ?_, ?_⟩
  · unfold handleOfferOn
    split
    · rfl
    · simp [apply_ite MState.peerConnections, pcModify_peerConnections, flush_peerConnections]
  · unfold handleOfferOn
    split
    · rfl
    · simp [apply_ite MState.nextPcId, pcModify_nextPcId, flush_nextPcId]
  · unfold handleOfferOn
    split
    · rfl
    · simp [apply_ite MState.connectionStates, pcModify_connStates, flush_connStates]

/-- Witness for the C4 amended theorem at a concrete state. -/
theorem handleOffer_reuses_existing_record_witness :
    (handleOffer 9 "v" healthyState).peerConnections = healthyState.peerConnections ∧
    (handleOffer 9 "v" healthyState).nextPcId = healthyState.nextPcId :=
  ⟨(handleOffer_reuses_existing_record healthyState 9 "v" 0 (by decide)).1,
   (handleOffer_reuses_existing_record healthyState 9 "v" 0 (by decide)).2.1⟩

/-- C5: receiving an answer from a sender with no connection record is a
no-op in both manager variants — the state is returned unchanged, so no
record is created, no remote description is applied, and no error
reaches the caller. -/
theorem handleAnswer_without_record_is_noop :
    (∀ (s : MState) (sdp : Nat) (u : String),
      mget s.peerConnections u = none → handleAnswer sdp u s = s) ∧
    (∀ (s : WebRTCBasic.BState) (sdp : Nat) (u : String),
      mget s.peerConnections u = none → WebRTCBasic.handleAnswer sdp u s = s) := by
  constructor
  · intro s sdp u h
    unfold handleAnswer
    rw [h]
  · intro s sdp u h
    unfold WebRTCBasic.handleAnswer
    rw [h]

/-- Witness for C5 at concrete states without a record for the sender. -/
theorem handleAnswer_without_record_is_noop_witness :
    handleAnswer 3 "zz" healthyState = healthyState ∧
    WebRTCBasic.handleAnswer 3 "zz" WebRTCBasic.b1 = WebRTCBasic.b1 :=
  ⟨handleAnswer_without_record_is_noop.1 healthyState 3 "zz" (by decide),
   handleAnswer_without_record_is_noop.2 WebRTCBasic.b1 3 "zz" (by decide)⟩

/-- Whatever record the reset step leaves for the peer has a zero retry
count and a cleared isRetrying flag. -/
theorem resetConnState_result (u : String) (s : MState) (st' : ConnectionState)
    (h : mget (resetConnState u s).connectionStates u = some st') :
    st'.retryCount = 0 ∧ st'.isRetrying = false := by
  unfold resetConnState at h
  cases hm : mget s.connectionStates u
  · rw [hm] at h
    rw [hm] at h
    cases h
  · rw [hm] at h
    simp [mget_mset_self] at h
    rw [← h]
    exact ⟨rfl, rfl⟩

/-- C6: every transition of the ICE connection state into connected or
completed, and of the connection state into connected, resets the retry
count of that peer to 0 and clears isRetrying; and in the concrete
Connected, Failed (one recovery attempt), Connected run the retry count
is back to 0 after the second Connected. -/
theorem connected_transition_resets_retry :
    (∀ (s : MState) (u : String) (ist : IceConnState) (now : Nat) (err : Bool)
        (st' : ConnectionState),
      ist = IceConnState.connected ∨ ist = IceConnState.completed →
      mget (onIceConnectionStateChange u ist now err s).connectionStates u = some st' →
      st'.retryCount = 0 ∧ st'.isRetrying = false) ∧
    (∀ (s : MState) (u : String) (now : Nat) (err : Bool) (st' : ConnectionState),
      mget (onConnectionStateChange u ConnState.connected now err s).connectionStates u
        = some st' →
      st'.retryCount = 0 ∧ st'.isRetrying = false) ∧
    (mget c6s1.connectionStates "b" = some ⟨0, 0, false⟩ ∧
     mget c6s2.connectionStates "b" = some ⟨1, 1, false⟩ ∧
     mget c6s3.connectionStates "b" = some ⟨0, 1, false⟩) := by
  refine ⟨?_, ?_, by decide⟩
  · intro s u ist now err st' hist h
    rcases hist with h1 | h1 <;> subst h1 <;> exact resetConnState_result u _ st' h
  · intro s u now err st' h
    exact resetConnState_result u _ st' h

/-- Witness for C6 at a concrete state. -/
theorem connected_transition_resets_retry_witness :
    mget (onIceConnectionStateChange "v" IceConnState.connected 0 false
        midRecoveryState).connectionStates "v" = some ⟨0, 0, false⟩ ∧
    ((0 : Nat) = 0 ∧ (false : Bool) = false) :=
  ⟨by decide,
   connected_transition_resets_retry.1 midRecoveryState "v" IceConnState.connected 0 false
     ⟨0, 0, false⟩ (Or.inl rfl) (by decide)⟩

/-- C8 counterexample: calling initialize twice from a fresh broadcaster
raises no error and silently re-joins — the second call emits a second
join-room envelope and leaves a connected socket — rather than failing
with an AlreadyStarted error. -/
theorem initManager_twice_silently_rejoins :
    (initManager (initManager (initState Role.broadcaster))).socket = true ∧
    (initManager (initManager (initState Role.broadcaster))).emitted
      = [Msg.joinRoom, Msg.joinRoom] := by
  decide

/-- C8 amended: initialize has no failure path and no joined-state
guard: from any state it installs a fresh socket (replacing any previous
one without disconnecting it), emits join-room, and touches nothing
else; calling it while already joined silently re-joins. -/
theorem initManager_total_and_rejoins (s : MState) :
    (initManager s).socket = true ∧
    (initManager s).emitted = s.emitted ++ [Msg.joinRoom] ∧
    (initManager s).peerConnections = s.peerConnections ∧
    (initManager s).localStream = s.localStream ∧
    (initManager s).connectionStates = s.connectionStates :=
  ⟨rfl, rfl, rfl, rfl, rfl⟩

end WebRTC

namespace WebRTC

/-! ## Retry-cap invariant under failure notifications -/

/-- handleConnectionFailure preserves the retry-budget bound. -/
theorem hCF_retryCap (u : String) (now : Nat) (err : Bool) (s : MState)
    (hs : RetryCap s) : RetryCap (handleConnectionFailure u now err s) := by
  unfold handleConnectionFailure
  cases hcs : mget s.connectionStates u with
  | none => exact hs
  | some st =>
    cases hr : st.isRetrying with
    | true => simpa [hr] using hs
    | false =>
      by_cases hcap : MAX_RETRY_ATTEMPTS ≤ st.retryCount
      · simp only [hr]
        simpa [hcap] using hs
      · intro p hp
        simp [hr, hcap, restartIce_connStates, mget_mset_self] at hp
        rcases mem_mset _ _ _ p hp with h | h
        · rw [h]
          simp [MAX_RETRY_ATTEMPTS] at hcap ⊢
          omega
        · rcases mem_mset _ _ _ p h with h2 | h2
          · rw [h2]
            simp [MAX_RETRY_ATTEMPTS] at hcap ⊢
            omega
          · exact hs p h2

/-- restartIceForPeer preserves the retry-budget bound. -/
theorem relay_retryCap (u : String) (now : Nat) (err : Bool) (s : MState)
    (hs : RetryCap s) : RetryCap (restartIceForPeer u now err s) := by
  unfold restartIceForPeer
  cases hpc : mget s.peerConnections u with
  | none =>
    intro p hp
    simp only [createOffer_connStates] at hp
    rcases mem_mset _ _ _ p hp with h | h
    · rw [h]; simp [MAX_RETRY_ATTEMPTS]
    · exact hs p h
  | some pcid =>
    cases hcs : mget s.connectionStates u with
    | none =>
      intro p hp
      simp [hcs, apply_ite MState.connectionStates, pcModify_connStates] at hp
      exact hs p hp
    | some st =>
      by_cases hcap : MAX_RETRY_ATTEMPTS ≤ st.retryCount
      · intro p hp
        simp [hcs, hcap] at hp
        exact hs p hp
      · intro p hp
        simp [hcs, hcap, apply_ite MState.connectionStates, pcModify_connStates] at hp
        rcases mem_mset _ _ _ p hp with h | h
        · rw [h]
          simp [MAX_RETRY_ATTEMPTS] at hcap ⊢
          omega
        · exact hs p h

/-- One failure notification preserves the retry-budget bound. -/
theorem applyFail_retryCap (s : MState) (e : FailNotice) (hs : RetryCap s) :
    RetryCap (applyFail s e) := by
  cases e with
  | localFail u now err => exact hCF_retryCap u now err s hs
  | relayFail u now err => exact relay_retryCap u now err s hs

/-- Any sequence of failure notifications preserves the retry-budget bound. -/
theorem runFails_retryCap : ∀ (evs : List FailNotice) (s : MState),
    RetryCap s → RetryCap (runFails s evs)
  | [], _, hs => hs
  | e :: rest, s, hs => runFails_retryCap rest (applyFail s e) (applyFail_retryCap s e hs)

/-- A peer that has a transport still has one after a relay-reported
failure notification. -/
theorem relay_pc_present (u : String) (now : Nat) (err : Bool) (s : MState) (v : String)
    (h : (mget s.peerConnections v).isSome = true) :
    (mget (restartIceForPeer u now err s).peerConnections v).isSome = true := by
  unfold restartIceForPeer
  cases hpc : mget s.peerConnections u with
  | none =>
    simp only [createOffer_peerConnections]
    by_cases hv : v = u
    · subst hv; simp [mget_mset_self]
    · simpa [mget_mset_ne _ _ _ _ hv] using h
  | some pcid =>
    cases hcs : mget s.connectionStates u with
    | none =>
      simpa [hcs, apply_ite MState.peerConnections, pcModify_peerConnections] using h
    | some st =>
      by_cases hcap : MAX_RETRY_ATTEMPTS ≤ st.retryCount
      · simpa [hcs, hcap] using h
      · simpa [hcs, hcap, apply_ite MState.peerConnections,
          pcModify_peerConnections] using h

/-- A peer that has a transport still has one after any single failure
notification. -/
theorem applyFail_pc_present (s : MState) (e : FailNotice) (v : String)
    (h : (mget s.peerConnections v).isSome = true) :
    (mget (applyFail s e).peerConnections v).isSome = true := by
  cases e with
  | localFail u now err => simpa [applyFail, hCF_peerConnections] using h
  | relayFail u now err => exact relay_pc_present u now err s v h

/-- At the retry cap, both failure paths leave the state unchanged. -/
theorem cap_blocks (s : MState) (u : String) (now : Nat) (err : Bool)
    (st : ConnectionState) (pcid : Nat)
    (hcs : mget s.connectionStates u = some st)
    (hcap : MAX_RETRY_ATTEMPTS ≤ st.retryCount)
    (hpc : mget s.peerConnections u = some pcid) :
    handleConnectionFailure u now err s = s ∧ restartIceForPeer u now err s = s := by
  constructor
  · unfold handleConnectionFailure
    rw [hcs]
    cases hr : st.isRetrying <;> simp [hcap]
  · unfold restartIceForPeer
    rw [hpc, hcs]
    simp [hcap]

/-- C2: under any sequence of failure notifications on either path, every
recorded retryCount stays within MAX_RETRY_ATTEMPTS, a peer with a
transport keeps one, and once a peer with a transport is at the cap, a
further failure notification on either path leaves the whole state
unchanged — in particular no transport createOffer or setLocalDescription
call happens and no offer is emitted. -/
theorem retryCount_capped_and_cap_blocks_offers :
    (∀ (s : MState) (evs : List FailNotice), RetryCap s → RetryCap (runFails s evs)) ∧
    (∀ (s : MState) (e : FailNotice) (v : String),
      (mget s.peerConnections v).isSome = true →
      (mget (applyFail s e).peerConnections v).isSome = true) ∧
    (∀ (s : MState) (u : String) (now : Nat) (err : Bool)
        (st : ConnectionState) (pcid : Nat),
      mget s.connectionStates u = some st →
      MAX_RETRY_ATTEMPTS ≤ st.retryCount →
      mget s.peerConnections u = some pcid →
      handleConnectionFailure u now err s = s ∧ restartIceForPeer u now err s = s) :=
  ⟨fun s evs hs => runFails_retryCap evs s hs,
   fun s e v h => applyFail_pc_present s e v h,
   fun s u now err st pcid h1 h2 h3 => cap_blocks s u now err st pcid h1 h2 h3⟩

/-- Witness for C2 at concrete states: a failure sequence from a fresh
manager keeps the bound, the transport survives a relay notification, and
at the cap the local path changes nothing. -/
theorem retryCount_capped_and_cap_blocks_offers_witness :
    RetryCap (runFails (initState Role.broadcaster) [FailNotice.localFail "v" 3 false]) ∧
    (mget (applyFail cappedState (FailNotice.relayFail "v" 1 false)).peerConnections
      "v").isSome = true ∧
    handleConnectionFailure "v" 7 true cappedState = cappedState :=
  ⟨retryCount_capped_and_cap_blocks_offers.1 (initState Role.broadcaster)
      [FailNotice.localFail "v" 3 false] (by decide),
   retryCount_capped_and_cap_blocks_offers.2.1 cappedState
      (FailNotice.relayFail "v" 1 false) "v" (by decide),
   (retryCount_capped_and_cap_blocks_offers.2.2 cappedState "v" 7 true ⟨5, 0, false⟩ 0
      (by decide) (by decide) (by decide)).1⟩

end WebRTC

namespace WebRTC

/-! ## Shutdown, per-peer teardown, and stream-stop frames -/

/-- stopStream with no held stream changes nothing. -/
theorem stopStream_of_none (s : MState) (h : s.localStream = none) : stopStream s = s := by
  unfold stopStream
  rw [h]

/-- Closing against an empty id list changes nothing. -/
theorem closeAll_nil (pcs : List (Nat × PC)) : closeAll pcs [] = pcs := by
  simp [closeAll]

/-- Lookup after closeAll: entries with an id in the list are closed, the
rest are untouched. -/
theorem mget_closeAll (pcs : List (Nat × PC)) (ids : List Nat) (i : Nat) :
    mget (closeAll pcs ids) i
      = (mget pcs i).map (fun pc => if i ∈ ids then { pc with closed := true } else pc) := by
  induction pcs with
  | nil => simp [closeAll, mget]
  | cons p rest ih =>
    obtain ⟨k, pc⟩ := p
    by_cases hm : k ∈ ids
    · have hhead : closeAll ((k, pc) :: rest) ids
          = (k, { pc with closed := true }) :: closeAll rest ids := by
        simp [closeAll, hm]
      rw [hhead]
      by_cases hk : i = k
      · subst hk; simp [mget, hm]
      · simp [mget, hk, ih]
    · have hhead : closeAll ((k, pc) :: rest) ids = (k, pc) :: closeAll rest ids := by
        simp [closeAll, hm]
      rw [hhead]
      by_cases hk : i = k
      · subst hk; simp [mget, hm]
      · simp [mget, hk, ih]

/-- The fields of the state after disconnect. -/
theorem disconnect_fields (s : MState) :
    (disconnect s).localStream = none ∧ (disconnect s).peerConnections = [] ∧
    (disconnect s).socket = false ∧
    (disconnect s).pcs = closeAll s.pcs (s.peerConnections.map Prod.snd) := by
  unfold disconnect
  cases hls : s.localStream with
  | none =>
    rw [stopStream_of_none s hls]
    cases hsk : s.socket <;> simp [hls, hsk]
  | some ts =>
    have hss : stopStream s
        = { s with tracks := ts.foldl stopTrackIn s.tracks, localStream := none } := by
      unfold stopStream; rw [hls]
    rw [hss]
    cases hsk : s.socket <;> simp [hsk]

/-- disconnect on a state already shut down changes nothing. -/
theorem disconnect_already_done (d : MState) (h1 : d.localStream = none)
    (h2 : d.peerConnections = []) (h3 : d.socket = false) : disconnect d = d := by
  unfold disconnect
  rw [stopStream_of_none d h1]
  simp only [h2, h3, List.map_nil, closeAll_nil, Bool.false_eq_true, if_false]
  rw [← h3, ← h2]

/-- C7: disconnect is idempotent — a second call reproduces the same
state exactly — and after it the local stream is gone, the
peerConnections map is empty, the socket is dropped, and every transport
that was held in the map has been closed. -/
theorem disconnect_idempotent (s : MState) :
    disconnect (disconnect s) = disconnect s ∧
    (disconnect s).localStream = none ∧
    (disconnect s).peerConnections = [] ∧
    (disconnect s).socket = false ∧
    (∀ (i : Nat) (pc : PC), mget s.pcs i = some pc →
      i ∈ s.peerConnections.map Prod.snd →
      mget (disconnect s).pcs i = some { pc with closed := true }) := by
  obtain ⟨h1, h2, h3, h4⟩ := disconnect_fields s
  refine ⟨disconnect_already_done _ h1 h2 h3, h1, h2, h3, ?_⟩
  intro i pc hpc hmem
  rw [h4, mget_closeAll, hpc]
  simp [hmem]

/-- Witness for C7 at a concrete state with a live transport. -/
theorem disconnect_idempotent_witness :
    disconnect (disconnect healthyState) = disconnect healthyState ∧
    mget (disconnect healthyState).pcs 0 = some { pcLive with closed := true } :=
  ⟨(disconnect_idempotent healthyState).1,
   (disconnect_idempotent healthyState).2.2.2.2 0 pcLive (by decide) (by decide)⟩

/-- C9: closing the connection of one peer removes exactly that peer from
the peerConnections, iceCandidateQueues and connectionStates maps and
closes only that peer transport; every other peer entry, every other
transport, the socket and the local stream are unchanged. -/
theorem closePeerConnection_removes_only_target (s : MState) (u : String) :
    mget (closePeerConnection u s).peerConnections u = none ∧
    mget (closePeerConnection u s).iceCandidateQueues u = none ∧
    mget (closePeerConnection u s).connectionStates u = none ∧
    (closePeerConnection u s).socket = s.socket ∧
    (closePeerConnection u s).localStream = s.localStream ∧
    (∀ v : String, v ≠ u →
      mget (closePeerConnection u s).peerConnections v = mget s.peerConnections v ∧
      mget (closePeerConnection u s).iceCandidateQueues v = mget s.iceCandidateQueues v ∧
      mget (closePeerConnection u s).connectionStates v = mget s.connectionStates v) ∧
    (∀ (pcid : Nat) (pc : PC), mget s.peerConnections u = some pcid →
      mget s.pcs pcid = some pc →
      mget (closePeerConnection u s).pcs pcid = some { pc with closed := true }) ∧
    (∀ i : Nat, mget s.peerConnections u ≠ some i →
      mget (closePeerConnection u s).pcs i = mget s.pcs i) := by
  unfold closePeerConnection
  cases hpc : mget s.peerConnections u with
  | none =>
    refine ⟨hpc, mget_mdel_self _ _, mget_mdel_self _ _, rfl, rfl, ?_, ?_, ?_⟩
    · intro v hv
      exact ⟨rfl, mget_mdel_ne _ _ _ hv, mget_mdel_ne _ _ _ hv⟩
    · intro pcid pc h1 h2
      exact Option.noConfusion h1
    · intro i _
      rfl
  | some pcid0 =>
    refine ⟨?_, ?_, ?_, ?_, ?_, ?_, ?_, ?_⟩
    · simp [pcModify_peerConnections, mget_mdel_self]
    · simp [pcModify_queues, mget_mdel_self]
    · simp [pcModify_connStates, mget_mdel_self]
    · simp [pcModify_socket]
    · simp [pcModify_localStream]
    · intro v hv
      refine ⟨?_, ?_, ?_⟩
      · simp [pcModify_peerConnections, mget_mdel_ne _ _ _ hv]
      · simp [pcModify_queues, mget_mdel_ne _ _ _ hv]
      · simp [pcModify_connStates, mget_mdel_ne _ _ _ hv]
    · intro pcid pc h1 h2
      injection h1 with h1
      subst h1
      have hpcs := pcModify_pcs_of_some s _
        (fun q => { q with closed := true }) pc h2
      simp [hpcs, mget_mset_self]
    · intro i hi
      have hne : i ≠ pcid0 := fun hc => hi (by rw [hc])
      cases hpcs : mget s.pcs pcid0 with
      | none =>
        have hmod := pcModify_of_none s pcid0 (fun q => { q with closed := true }) hpcs
        simp [hmod]
      | some pc2 =>
        have hmod := pcModify_pcs_of_some s pcid0
          (fun q => { q with closed := true }) pc2 hpcs
        simp [hmod, mget_mset_ne _ _ _ _ hne]

/-- Witness for C9 at a concrete two-peer state. -/
theorem closePeerConnection_removes_only_target_witness :
    mget (closePeerConnection "v" twoPeerState).peerConnections "w"
      = mget twoPeerState.peerConnections "w" ∧
    mget (closePeerConnection "v" twoPeerState).pcs 0 = some { pcLive with closed := true } ∧
    mget (closePeerConnection "v" twoPeerState).pcs 1 = mget twoPeerState.pcs 1 :=
  ⟨((closePeerConnection_removes_only_target twoPeerState "v").2.2.2.2.2.1 "w"
      (by decide)).1,
   (closePeerConnection_removes_only_target twoPeerState "v").2.2.2.2.2.2.1 0 pcLive
      (by decide) (by decide),
   (closePeerConnection_removes_only_target twoPeerState "v").2.2.2.2.2.2.2 1 (by decide)⟩

/-- Stopping a track leaves every other track entry unchanged. -/
theorem stopTrackIn_other (tracks : List (Nat × Track)) (tid i : Nat) (h : i ≠ tid) :
    mget (stopTrackIn tracks tid) i = mget tracks i := by
  unfold stopTrackIn
  cases hm : mget tracks tid
  · rfl
  · exact mget_mset_ne _ _ _ _ h

/-- An already-stopped track entry survives the stop fold unchanged. -/
theorem foldl_stop_preserves (ts : List Nat) (tracks : List (Nat × Track)) (tid : Nat)
    (t : Track) (h : mget tracks tid = some t) (hs : t.stopped = true) :
    mget (ts.foldl stopTrackIn tracks) tid = some t := by
  induction ts generalizing tracks with
  | nil => simpa using h
  | cons a rest ih =>
    simp only [List.foldl_cons]
    by_cases ha : tid = a
    · subst ha
      have ht : ({ t with stopped := true } : Track) = t := by
        cases t
        simp_all
      have h1 : mget (stopTrackIn tracks tid) tid = some t := by
        unfold stopTrackIn
        rw [h, mget_mset_self, ht]
      exact ih _ h1
    · have h1 : mget (stopTrackIn tracks a) tid = some t := by
        rw [stopTrackIn_other _ _ _ ha]
        exact h
      exact ih _ h1

/-- Every track of the stopped list ends up stopped after the fold. -/
theorem foldl_stops (ts : List Nat) (tracks : List (Nat × Track)) (tid : Nat) (t : Track)
    (hmem : tid ∈ ts) (h : mget tracks tid = some t) :
    mget (ts.foldl stopTrackIn tracks) tid = some { t with stopped := true } := by
  induction ts generalizing tracks t with
  | nil => cases hmem
  | cons a rest ih =>
    simp only [List.foldl_cons]
    by_cases ha : tid = a
    · subst ha
      have h1 : mget (stopTrackIn tracks tid) tid = some { t with stopped := true } := by
        unfold stopTrackIn
        rw [h, mget_mset_self]
      by_cases hr : tid ∈ rest
      · exact ih _ _ hr h1
      · exact foldl_stop_preserves rest _ tid _ h1 rfl
    · have h2 : mget (stopTrackIn tracks a) tid = some t := by
        rw [stopTrackIn_other _ _ _ ha]
        exact h
      have hr : tid ∈ rest := by
        rcases List.mem_cons.mp hmem with hh | hh
        · exact absurd hh ha
        · exact hh
      exact ih _ _ hr h2

/-- C10: stopStream only stops the tracks of the local stream and clears
the local stream reference (getLocalStream returns none afterward); the
peerConnections, iceCandidateQueues, and connectionStates maps, the
transport store with every sender on it, and the emission trace are
unchanged, so peers retain senders holding the now-stopped tracks. -/
theorem stopStream_frame (s : MState) :
    (stopStream s).peerConnections = s.peerConnections ∧
    (stopStream s).iceCandidateQueues = s.iceCandidateQueues ∧
    (stopStream s).connectionStates = s.connectionStates ∧
    (stopStream s).pcs = s.pcs ∧
    (stopStream s).emitted = s.emitted ∧
    (stopStream s).socket = s.socket ∧
    (stopStream s).localStream = none ∧
    getLocalStream (stopStream s) = none ∧
    (∀ (ts : List Nat) (tid : Nat) (t : Track), s.localStream = some ts → tid ∈ ts →
      mget s.tracks tid = some t →
      mget (stopStream s).tracks tid = some { t with stopped := true }) := by
  cases hls : s.localStream with
  | none =>
    rw [stopStream_of_none s hls]
    refine ⟨rfl, rfl, rfl, rfl, rfl, rfl, hls, hls, ?_⟩
    intro ts tid t h1 _ _
    exact Option.noConfusion h1
  | some ts0 =>
    have hss : stopStream s
        = { s with tracks := ts0.foldl stopTrackIn s.tracks, localStream := none } := by
      unfold stopStream; rw [hls]
    rw [hss]
    refine ⟨rfl, rfl, rfl, rfl, rfl, rfl, rfl, rfl, ?_⟩
    intro ts tid t h1 hmem ht
    injection h1 with h1
    subst h1
    show mget (ts0.foldl stopTrackIn s.tracks) tid = some { t with stopped := true }
    exact foldl_stops ts0 s.tracks tid t hmem ht

/-- Witness for C10 at a concrete broadcaster with a live stream. -/
theorem stopStream_frame_witness :
    mget (stopStream healthyState).tracks 0 = some ⟨true⟩ ∧
    (stopStream healthyState).peerConnections = healthyState.peerConnections :=
  ⟨(stopStream_frame healthyState).2.2.2.2.2.2.2.2 [0] 0 ⟨false⟩ (by decide) (by decide)
      (by decide),
   (stopStream_frame healthyState).1⟩

end WebRTC

namespace WebRTC

/-- Witness for the C8 amended theorem at a concrete state. -/
theorem initManager_total_and_rejoins_witness :
    (initManager (initState Role.viewer)).socket = true ∧
    (initManager (initState Role.viewer)).emitted = [Msg.joinRoom] :=
  ⟨(initManager_total_and_rejoins (initState Role.viewer)).1,
   (initManager_total_and_rejoins (initState Role.viewer)).2.1⟩

end WebRTC
